import Mathlib

/-!
Shallow embedding of src/apps/vault.py (class VaultHandler).

Modelling conventions:
* os.environ is an association list `Dict` of string keys and values;
  `envLookup`, `envMem`, `envSet` translate dict get, membership, and
  assignment.
* The hvac collaborator is abstracted by `Backend`: `token` is the client
  token the AppRole login exchange yields, `loginRaises` says whether the
  exchange raises, and `store` maps a secret path to the flat mapping
  response["data"]["data"] (`none` models hvac raising for that path).
* Python exceptions are values of `PyErr`, one constructor per raise site;
  mutable state (environment writes, the trace of fetched paths, the count
  of login exchanges) is threaded explicitly as `Sys`, so a raised
  exception still reports the state reached when it was raised.
* Line 13 of the source comments out the assignment
  logger = CloudwatchLoggerHandler().get_logger() (and line 6 comments
  out the corresponding module-level import), and no other definition of
  the name logger exists in the module, so every logger.error or
  logger.warning call raises NameError (name logger is not defined) at
  run time. `loggerError` and `loggerWarning` translate those calls
  faithfully: they are `Except.error PyErr.nameErrorLogger`, and code that
  would run after such a call is still translated (it is dead, exactly as
  in the source).
* Secret values are modelled as strings; the except-TypeError /
  json.dumps fallback of _set_environments (lines 119-121), which only
  fires for non-string config values, is therefore outside the model.
* Python string helpers used by the source (startswith, split, replace,
  upper) are translated character by character so that they compute by
  kernel reduction.
-/

namespace Vault

/-- Model of a Python dict with string keys and values, in insertion order
(also used for os.environ). Keys are unique by construction in Python. -/
abbrev Dict := List (String × String)

/-- Dict lookup (Python d.get(key) / d[key]): value of the first (unique)
binding of the key, if any. -/
def envLookup : Dict → String → Option String
  | [], _ => none
  | (k, v) :: rest, key => if key = k then some v else envLookup rest key

/-- Dict membership (Python: key in d). -/
def envMem (d : Dict) (key : String) : Bool :=
  (envLookup d key).isSome

/-- Dict assignment (Python d[key] = value): replace the binding in place,
or append. -/
def envSet : Dict → String → String → Dict
  | [], key, value => [(key, value)]
  | (k, v) :: rest, key, value =>
    if key = k then (k, value) :: rest else (k, v) :: envSet rest key value

/-- Dict update (Python acc.update(data)): assign every binding of data
into acc, in iteration order. -/
def dictUpdate (acc data : Dict) : Dict :=
  data.foldl (fun r p => envSet r p.1 p.2) acc

/-- Key-set intersection (Python: data.keys() & acc.keys()) — the keys of
data also present in acc (as a list, in the iteration order of data). -/
def keysInter (data acc : Dict) : List String :=
  (data.map Prod.fst).filter (fun k => envMem acc k)

/-- True iff the list of keys of a dict has no repetition (always the
case for a dict materialised by Python itself). -/
def nodupKeys : Dict → Bool
  | [] => true
  | (k, _) :: rest => !envMem rest k && nodupKeys rest

/-- Character-level helper for startswith: `strLeads pre s` checks that
pre leads s. -/
def strLeads : List Char → List Char → Bool
  | [], _ => true
  | _ :: _, [] => false
  | p :: ps, c :: cs => (p = c) && strLeads ps cs

/-- Python s.startswith(pre). -/
def pyStartswith (s pre : String) : Bool :=
  strLeads pre.toList s.toList

/-- Python s.split("/")[-1]: the segment after the last slash. -/
def lastSeg (cs : List Char) : List Char :=
  cs.foldl (fun acc c => if c = '/' then [] else acc ++ [c]) []

/-- Python s.replace(".py", ""): remove every (non-overlapping,
left-to-right) occurrence of ".py". -/
def dropPySuffix : List Char → List Char
  | '.' :: 'p' :: 'y' :: rest => dropPySuffix rest
  | c :: rest => c :: dropPySuffix rest
  | [] => []

/-- Python s.upper(). -/
def pyUpper (s : String) : String :=
  String.mk (s.toList.map Char.toUpper)

/-- Translation of sys.argv[0].split("/")[-1].replace(".py", "").upper()
(line 231 of the source). -/
def appnameOf (argv0 : String) : String :=
  pyUpper (String.mk (dropPySuffix (lastSeg argv0.toList)))

/-- Exceptions of the source module, one constructor per raise site. -/
inductive PyErr where
  /-- NameError (name logger is not defined) — raised by every
  logger.error / logger.warning call, since line 13 (the only assignment
  to logger) is commented out. -/
  | nameErrorLogger
  /-- Bare raise statement with no active exception (RuntimeError);
  lines 139, 146, 161. All three are dead: a logger.error call precedes
  each, and that call raises NameError first. -/
  | runtimeErrorBareRaise
  /-- Exception propagated from the hvac login exchange (transport or
  credential fault); _approle_login has no try, so it propagates. -/
  | hvacLoginException
  /-- AttributeError — reading client.token when the login helper
  returned None. -/
  | attributeErrorNoneClient
  /-- Exception propagated from read_secret (for example InvalidPath);
  the call is not wrapped in any try. -/
  | keyErrorPathNotFound (path : String)
  /-- Exception "DUPLICATED environment in config: {key}",
  _set_environments line 118. -/
  | exceptionDuplicatedEnv (key : String)
  /-- Exception "VAULT_PATH DUPLICATED environment in config: ...",
  _set_environments lines 105-107. -/
  | exceptionVaultPathDuplicated (key : String) (path : String) (secret : String)
  /-- Exception "VAULT_PATH cannot retrieve secret in config: ...",
  _set_environments line 109. -/
  | exceptionVaultPathCannotRetrieve (key : String) (path : String)
  /-- ValueError "role_id and/or secret_id not present ...", get_secret
  line 191. -/
  | valueErrorMissingCreds
  /-- ValueError "cannot instantiate hvac.Client class ...", get_secret
  line 196. -/
  | valueErrorNoToken
  /-- Exception "Path {...} cannot be retrieved from Vault ...",
  get_config_path lines 237 and 245. -/
  | exceptionConfigPathNotRetrieved (path : String)
  /-- Exception "Not able to determine CONFIG PATHS ...", get_config_path
  line 247. -/
  | exceptionNoConfigPath
  deriving Repr, DecidableEq

/-- Observable mutable state threaded through every operation. -/
structure Sys where
  /-- Process environment os.environ. -/
  environ : Dict
  /-- Trace: the secret paths passed to read_secret, in call order. -/
  fetched : List String
  /-- Trace: how many AppRole login exchanges were performed. -/
  logins : Nat
  /-- Value of sys.argv[0]. -/
  argv0 : String
  deriving Repr, DecidableEq

/-- External hvac/Vault collaborator, abstracted. -/
structure Backend where
  /-- Client token the AppRole login exchange returns
  (response["auth"]["client_token"]); the empty string models a
  missing/empty token. -/
  token : String
  /-- Whether the login exchange raises instead of returning. -/
  loginRaises : Bool
  /-- Mapping path to read_secret(path)["data"]["data"], or none if hvac
  raises for that path. -/
  store : String → Option Dict

/-- Model of an hvac client as far as the source observes it. -/
structure Client where
  token : String
  deriving Repr, DecidableEq

/-- Instance fields of VaultHandler set by its constructor. -/
structure VaultHandler where
  role_id : Option String
  secret_id : Option String
  url : Option String
  deriving Repr, DecidableEq

/-- Python x or y for optional strings: None and the empty string are
falsy. -/
def pyOr (a b : Option String) : Option String :=
  match a with
  | some v => if v = "" then b else some v
  | none => b

/-- Constructor of VaultHandler (lines 23-34): each field falls back to an
environment variable when the argument is absent or falsy. -/
def VaultHandler.init (url role_id secret_id : Option String) (s : Sys) :
    VaultHandler :=
  { role_id := pyOr role_id (envLookup s.environ ("role_id"))
    secret_id := pyOr secret_id (envLookup s.environ ("secret_id"))
    url := pyOr url (envLookup s.environ ("VAULT_ADDR")) }

/-- Effect of a logger.error(...) call: raises NameError (see the module
comment). -/
def loggerError : Except PyErr Unit :=
  .error .nameErrorLogger

/-- Effect of a logger.warning(...) call: raises NameError (see the module
comment). -/
def loggerWarning : Except PyErr Unit :=
  .error .nameErrorLogger

/-- Translation of _check_env_credentials (lines 76-82): consults only
os.environ, never the instance fields. -/
def check_env_credentials (s : Sys) : Bool :=
  envMem s.environ ("role_id") && envMem s.environ ("secret_id")

/-- Translation of _approle_login (lines 36-55). The login exchange is
counted in the logins trace. On a truthy token the client is returned;
otherwise the source calls logger.error (which raises NameError) and
would fall off the end returning None. -/
def approle_login (h : VaultHandler) (b : Backend) (s : Sys) :
    Sys × Except PyErr (Option Client) :=
  let s1 : Sys := { s with logins := s.logins + 1 }
  if b.loginRaises then
    (s1, .error .hvacLoginException)
  else if b.token = "" then
    match loggerError with
    | .error e => (s1, .error e)
    | .ok _ => (s1, .ok none)
  else
    (s1, .ok (some { token := b.token }))

/-- Translation of _check_hvac_client_login (lines 57-74): the whole body
is wrapped in try/except, so a raising exchange yields None (after a
print). There is no truthy check on the token here. -/
def check_hvac_client_login (h : VaultHandler) (b : Backend) (s : Sys) :
    Sys × Option Client :=
  let s1 : Sys := { s with logins := s.logins + 1 }
  if b.loginRaises then (s1, none) else (s1, some { token := b.token })

/-- Path argument normalisation in read_path (lines 148-149) and
get_secret (lines 198-202): a single string becomes a one-element list. -/
inductive PathArg where
  | str (p : String)
  | list (ps : List String)
  deriving Repr, DecidableEq

/-- List of paths actually iterated. -/
def pathList : PathArg → List String
  | .str p => [p]
  | .list ps => ps

/-- Fetch-and-merge loop of read_path (lines 151-163). For each path:
read the secret, fail if its keys intersect the accumulator (logger.error
— hence NameError — then a dead bare raise), otherwise
results.update(data). -/
def fetchLoop (b : Backend) (s : Sys) (paths : List String) (results : Dict) :
    Sys × Except PyErr Dict :=
  match paths with
  | [] => (s, .ok results)
  | p :: rest =>
    let s1 : Sys := { s with fetched := s.fetched ++ [p] }
    match b.store p with
    | none => (s1, .error (.keyErrorPathNotFound p))
    | some data =>
      if keysInter data results ≠ [] then
        match loggerError with
        | .error e => (s1, .error e)
        | .ok _ => (s1, .error .runtimeErrorBareRaise)
      else
        fetchLoop b s1 rest (dictUpdate results data)

/-- Translation of read_path (lines 123-169). The verify argument only
configures the abstracted transport and is omitted. Note lines 165-167:
when environ is true the merged result is written into os.environ
unconditionally — no duplicate check, existing values are overwritten. -/
def read_path (h : VaultHandler) (b : Backend) (s : Sys) (path : PathArg)
    (environ : Bool) : Sys × Except PyErr Dict :=
  if check_env_credentials s = false then
    match loggerError with
    | .error e => (s, .error e)
    | .ok _ => (s, .error .runtimeErrorBareRaise)
  else
    match approle_login h b s with
    | (s1, .error e) => (s1, .error e)
    | (s1, .ok none) => (s1, .error .attributeErrorNoneClient)
    | (s1, .ok (some client)) =>
      if client.token = "" then
        match loggerError with
        | .error e => (s1, .error e)
        | .ok _ => (s1, .error .runtimeErrorBareRaise)
      else
        match fetchLoop b s1 (pathList path) [] with
        | (s2, .error e) => (s2, .error e)
        | (s2, .ok results) =>
          if environ then
            ({ s2 with environ := dictUpdate s2.environ results }, .ok results)
          else
            (s2, .ok results)

/-- Error dict returned by get_secret on a duplicate key (lines 212-214). -/
def errsDict (dups : List String) : Dict :=
  [("errors",
    "duplicated key while dict update duplicated keys: "
      ++ String.intercalate (", ") dups)]

/-- Fetch-and-merge loop of get_secret (lines 204-218): same merge rule
as fetchLoop, but an intersection returns (False, errors-dict) instead of
raising. -/
def getSecretLoop (b : Backend) (s : Sys) (paths : List String)
    (result_dict : Dict) : Sys × Except PyErr (Bool × Dict) :=
  match paths with
  | [] => (s, .ok (true, result_dict))
  | p :: rest =>
    let s1 : Sys := { s with fetched := s.fetched ++ [p] }
    match b.store p with
    | none => (s1, .error (.keyErrorPathNotFound p))
    | some data =>
      if keysInter data result_dict ≠ [] then
        (s1, .ok (false, errsDict (keysInter data result_dict)))
      else
        getSecretLoop b s1 rest (dictUpdate result_dict data)

/-- Translation of get_secret (lines 171-218). Its first statement is the
deprecation logger.warning call, which raises NameError (undefined
logger), so the rest of the body — translated below all the same — is
dead. -/
def get_secret (h : VaultHandler) (b : Backend) (s : Sys) (path : PathArg) :
    Sys × Except PyErr (Bool × Dict) :=
  match loggerWarning with
  | .error e => (s, .error e)
  | .ok _ =>
    if check_env_credentials s = false then
      (s, .error .valueErrorMissingCreds)
    else
      match check_hvac_client_login h b s with
      | (s1, none) => (s1, .error .attributeErrorNoneClient)
      | (s1, some client) =>
        if client.token = "" then
          (s1, .error .valueErrorNoToken)
        else
          getSecretLoop b s1 (pathList path) []

/-- Inner loop of the VAULT_PATH_ branch of _set_environments (lines
101-107): write each resolved secret unless already present, in which
case raise. -/
def setSecretsLoop (s : Sys) (key : String) (path : String) (secrets : Dict) :
    Sys × Except PyErr Unit :=
  match secrets with
  | [] => (s, .ok ())
  | (sk, sv) :: rest =>
    if envMem s.environ sk = false then
      setSecretsLoop { s with environ := envSet s.environ sk sv } key path rest
    else
      (s, .error (.exceptionVaultPathDuplicated key path sk))

/-- Translation of _set_environments (lines 84-121). For each config
entry: if the key has the VAULT_PATH_ marker, resolve it through
get_secret (lines 95-109); then — the marker branch has no continue
statement, so this runs for marker keys too — the plain write with
duplicate check (lines 111-118). The except-TypeError fallback (lines
119-121) only fires for non-string values, which are outside the model. -/
def set_environments (h : VaultHandler) (b : Backend) (s : Sys) (env : Dict) :
    Sys × Except PyErr Unit :=
  match env with
  | [] => (s, .ok ())
  | (key, value) :: rest =>
    let afterMarker : Sys × Except PyErr Unit :=
      if pyStartswith key ("VAULT_PATH_") then
        match get_secret h b s (.str value) with
        | (s1, .error e) => (s1, .error e)
        | (s1, .ok (state, secrets)) =>
          if state then
            setSecretsLoop s1 key value secrets
          else
            (s1, .error (.exceptionVaultPathCannotRetrieve key value))
      else
        (s, .ok ())
    match afterMarker with
    | (s1, .error e) => (s1, .error e)
    | (s1, .ok _) =>
      if envMem s1.environ key = false then
        set_environments h b { s1 with environ := envSet s1.environ key value } rest
      else
        (s1, .error (.exceptionDuplicatedEnv key))

/-- Translation of get_config_path (lines 220-247). Its first statement
is the deprecation logger.warning call — NameError — so everything after
it, including the unconditional APPNAME assignment on line 231, is dead. -/
def get_config_path (h : VaultHandler) (b : Backend) (s : Sys) :
    Sys × Except PyErr Unit :=
  match loggerWarning with
  | .error e => (s, .error e)
  | .ok _ =>
    let appname := appnameOf s.argv0
    let s0 : Sys := { s with environ := envSet s.environ ("APPNAME") appname }
    match envLookup s0.environ ("DECONFPATH") with
    | some dpath =>
      (match get_secret h b s0 (.str dpath) with
       | (s1, .error e) => (s1, .error e)
       | (s1, .ok (state, config)) =>
         if state then
           set_environments h b s1 config
         else
           (s1, .error (.exceptionConfigPathNotRetrieved dpath)))
    | none =>
      match envLookup s0.environ ("env") with
      | some envv =>
        -- line 240; the APPNAME read there is the value set on line 231
        let dpath := "dataeng/config/" ++ pyUpper envv ++ "/" ++ appname
        let s1 : Sys := { s0 with environ := envSet s0.environ ("DECONFPATH") dpath }
        (match get_secret h b s1 (.str dpath) with
         | (s2, .error e) => (s2, .error e)
         | (s2, .ok (state, config)) =>
           if state then
             set_environments h b s2 config
           else
             (s2, .error (.exceptionConfigPathNotRetrieved dpath)))
      | none => (s0, .error .exceptionNoConfigPath)

/-! ### Auxiliary definitions used to state the claims -/

/-- Union of an ordered list of bundles, read through lookup: the value
of the key in the first bundle that binds it. For pairwise-disjoint
bundles this is the value of the key in their union. -/
def bundlesFind (bundles : List Dict) (k : String) : Option String :=
  bundles.findSome? (fun d => envLookup d k)

/-- Computably: the key sets of the bundles are pairwise disjoint. -/
def pairwiseDisjointB : List Dict → Bool
  | [] => true
  | d :: ds => ds.all (fun d2 => (keysInter d d2).isEmpty) && pairwiseDisjointB ds

/-- Computably: no config entry carries the VAULT_PATH_ marker. -/
def allPlain : Dict → Bool
  | [] => true
  | (k, _) :: rest => !pyStartswith k ("VAULT_PATH_") && allPlain rest

/-! ### Concrete fixtures (for witnesses and counterexamples) -/

/-- Environment holding the two AppRole identifiers. -/
def credEnv : Dict := [("role_id", "r-1"), ("secret_id", "s-1")]

/-- State with credentials in the environment and clean traces. -/
def sysCred : Sys :=
  { environ := credEnv, fetched := [], logins := 0, argv0 := "/srv/app.py" }

/-- State whose environment is empty (no credentials). -/
def sysNoCred : Sys :=
  { environ := [], fetched := [], logins := 0, argv0 := "/srv/app.py" }

/-- State with credentials and a pre-existing variable K=old. -/
def sysDupEnv : Sys :=
  { environ := credEnv ++ [("K", "old")], fetched := [], logins := 0,
    argv0 := "/srv/app.py" }

/-- Example store following the specification scenarios: app/db,
app/cache, app/legacy-db (sharing DB_USER with app/db), and a path db
whose bundle collides with the pre-existing environment variable K. -/
def storeEx : String → Option Dict := fun p =>
  if p = "app/db" then some [("DB_USER", "a"), ("DB_PASS", "b")]
  else if p = "app/cache" then some [("CACHE_HOST", "h")]
  else if p = "app/legacy-db" then some [("DB_USER", "z")]
  else if p = "db" then some [("K", "new")]
  else none

/-- Healthy backend: non-empty token, login succeeds. -/
def backendEx : Backend :=
  { token := "tok", loginRaises := false, store := storeEx }

/-- Backend whose login exchange returns an empty client token. -/
def backendEmptyTok : Backend :=
  { token := "", loginRaises := false, store := storeEx }

/-- Handler with explicit constructor credentials. -/
def handlerEx : VaultHandler :=
  { role_id := some ("r-1"), secret_id := some ("s-1"),
    url := some ("https://vault") }

/-! ### Lemmas about the dictionary model -/

theorem listIsEmpty_iff (l : List String) : l.isEmpty = true ↔ l = [] := by
  cases l <;> simp [List.isEmpty]

theorem envLookup_envSet (e : Dict) (k v k2 : String) :
    envLookup (envSet e k v) k2 = if k2 = k then some v else envLookup e k2 := by
  induction e with
  | nil =>
    by_cases h2 : k2 = k <;> simp [envSet, envLookup, h2]
  | cons p rest ih =>
    obtain ⟨pk, pv⟩ := p
    by_cases hk : k = pk
    · subst hk
      by_cases h2 : k2 = k <;> simp [envSet, envLookup, h2]
    · have hset : envSet ((pk, pv) :: rest) k v = (pk, pv) :: envSet rest k v := by
        simp [envSet, hk]
      rw [hset]
      by_cases h3 : k2 = pk
      · subst h3
        have hne : ¬ k2 = k := fun hh => hk hh.symm
        simp [envLookup, hne]
      · simp [envLookup, h3, ih]

theorem envMem_envSet (e : Dict) (k v k2 : String) :
    envMem (envSet e k v) k2 = if k2 = k then true else envMem e k2 := by
  by_cases h2 : k2 = k <;> simp [envMem, envLookup_envSet, h2]

theorem envMem_iff_mem_keys (d : Dict) (k : String) :
    envMem d k = true ↔ k ∈ d.map Prod.fst := by
  induction d with
  | nil => simp [envMem, envLookup]
  | cons p rest ih =>
    obtain ⟨pk, pv⟩ := p
    by_cases h : k = pk
    · subst h
      simp [envMem, envLookup]
    · simpa [envMem, envLookup, h] using ih

theorem envMem_cons (pk pv : String) (rest : Dict) (k : String) :
    envMem ((pk, pv) :: rest) k = if k = pk then true else envMem rest k := by
  by_cases h : k = pk <;> simp [envMem, envLookup, h]

theorem keysInter_eq_nil_iff (d c : Dict) :
    keysInter d c = [] ↔ ∀ k ∈ d.map Prod.fst, envMem c k = false := by
  simp [keysInter, List.filter_eq_nil_iff]

theorem keysInter_nil_right (d : Dict) : keysInter d [] = [] :=
  (keysInter_eq_nil_iff d []).mpr (fun _ _ => rfl)

theorem envMem_dictUpdate (d : Dict) :
    ∀ (acc : Dict) (k : String),
      envMem (dictUpdate acc d) k = (envMem d k || envMem acc k) := by
  induction d with
  | nil =>
    intro acc k
    simp [dictUpdate, envMem, envLookup]
  | cons p rest ih =>
    intro acc k
    obtain ⟨pk, pv⟩ := p
    have hstep : dictUpdate acc ((pk, pv) :: rest) =
        dictUpdate (envSet acc pk pv) rest := rfl
    rw [hstep, ih, envMem_envSet, envMem_cons]
    by_cases h : k = pk <;> simp [h]

theorem envLookup_dictUpdate (d : Dict) :
    ∀ (acc : Dict) (k : String), nodupKeys d = true →
      envLookup (dictUpdate acc d) k =
        (match envLookup d k with
         | some v => some v
         | none => envLookup acc k) := by
  induction d with
  | nil =>
    intro acc k _
    simp [dictUpdate, envLookup]
  | cons p rest ih =>
    intro acc k hnd
    obtain ⟨pk, pv⟩ := p
    simp only [nodupKeys, Bool.and_eq_true, Bool.not_eq_true'] at hnd
    obtain ⟨h1, h2⟩ := hnd
    have hstep : dictUpdate acc ((pk, pv) :: rest) =
        dictUpdate (envSet acc pk pv) rest := rfl
    rw [hstep, ih (envSet acc pk pv) k h2]
    by_cases h : k = pk
    · subst h
      have hnone : envLookup rest k = none := by
        cases hl : envLookup rest k with
        | none => rfl
        | some w => simp [envMem, hl] at h1
      simp [envLookup, hnone, envLookup_envSet]
    · cases hl : envLookup rest k with
      | some w => simp [envLookup, h, hl]
      | none => simp [envLookup, h, hl, envLookup_envSet]

/-! ### Lemmas about the fetch-and-merge loop of read_path -/

theorem fetchLoop_state (b : Backend) :
    ∀ (paths : List String) (s : Sys) (acc : Dict),
      ((fetchLoop b s paths acc).1).logins = s.logins ∧
      ((fetchLoop b s paths acc).1).environ = s.environ := by
  intro paths
  induction paths with
  | nil => intro s acc; exact ⟨rfl, rfl⟩
  | cons p rest ih =>
    intro s acc
    have hunfold : fetchLoop b s (p :: rest) acc =
        (match b.store p with
         | none =>
           ({ s with fetched := s.fetched ++ [p] },
             .error (.keyErrorPathNotFound p))
         | some data =>
           if keysInter data acc ≠ [] then
             ({ s with fetched := s.fetched ++ [p] }, .error .nameErrorLogger)
           else
             fetchLoop b { s with fetched := s.fetched ++ [p] } rest
               (dictUpdate acc data)) := rfl
    rw [hunfold]
    cases b.store p with
    | none => exact ⟨rfl, rfl⟩
    | some data =>
      dsimp only
      by_cases hk : keysInter data acc ≠ []
      · rw [if_pos hk]
        exact ⟨rfl, rfl⟩
      · rw [if_neg hk]
        exact ih { s with fetched := s.fetched ++ [p] } (dictUpdate acc data)

theorem fetchLoop_disjoint (b : Backend) :
    ∀ (paths : List String) (bundles : List Dict) (s : Sys) (acc : Dict),
      paths.map b.store = bundles.map some →
      (∀ d ∈ bundles, nodupKeys d = true) →
      (∀ d ∈ bundles, keysInter d acc = []) →
      pairwiseDisjointB bundles = true →
      ∃ s2 res, fetchLoop b s paths acc = (s2, .ok res) ∧
        ∀ k, envLookup res k =
          (match envLookup acc k with
           | some v => some v
           | none => bundlesFind bundles k) := by
  intro paths
  induction paths with
  | nil =>
    intro bundles s acc hmap _ _ _
    cases bundles with
    | nil =>
      refine ⟨s, acc, rfl, fun k => ?_⟩
      cases hl : envLookup acc k <;> simp [bundlesFind, hl]
    | cons d ds => simp at hmap
  | cons p ps ih =>
    intro bundles s acc hmap hnodup hdisj hpw
    cases bundles with
    | nil => simp at hmap
    | cons d ds =>
      simp only [List.map_cons, List.cons.injEq] at hmap
      obtain ⟨hstore, hmaps⟩ := hmap
      have hkd : keysInter d acc = [] := hdisj d (by simp)
      simp only [pairwiseDisjointB, Bool.and_eq_true, List.all_eq_true] at hpw
      obtain ⟨hall, hpw2⟩ := hpw
      have hnodup2 : ∀ d2 ∈ ds, nodupKeys d2 = true :=
        fun d2 hmem => hnodup d2 (by simp [hmem])
      have hnd : nodupKeys d = true := hnodup d (by simp)
      have hdisj2 : ∀ d2 ∈ ds, keysInter d2 (dictUpdate acc d) = [] := by
        intro d2 hmem
        rw [keysInter_eq_nil_iff]
        intro k hkmem
        rw [envMem_dictUpdate]
        have hkd2 : envMem d2 k = true := (envMem_iff_mem_keys d2 k).mpr hkmem
        have hnacc : envMem acc k = false := by
          have := (keysInter_eq_nil_iff d2 acc).mp (hdisj d2 (by simp [hmem])) k hkmem
          exact this
        have hnd' : envMem d k = false := by
          cases hdk : envMem d k with
          | false => rfl
          | true =>
            have hkind : k ∈ d.map Prod.fst := (envMem_iff_mem_keys d k).mp hdk
            have hiempty : (keysInter d d2).isEmpty = true := hall d2 hmem
            have : keysInter d d2 = [] := (listIsEmpty_iff _).mp hiempty
            have := (keysInter_eq_nil_iff d d2).mp this k hkind
            rw [this] at hkd2
            exact absurd hkd2 (by simp)
        rw [hnacc, hnd']
        rfl
      have hrec := ih ds { s with fetched := s.fetched ++ [p] } (dictUpdate acc d)
        hmaps hnodup2 hdisj2 hpw2
      obtain ⟨s2, res, heq, hchar⟩ := hrec
      have hunfold : fetchLoop b s (p :: ps) acc =
          fetchLoop b { s with fetched := s.fetched ++ [p] } ps
            (dictUpdate acc d) := by
        have h1 : fetchLoop b s (p :: ps) acc =
            (match b.store p with
             | none =>
               ({ s with fetched := s.fetched ++ [p] },
                 .error (.keyErrorPathNotFound p))
             | some data =>
               if keysInter data acc ≠ [] then
                 ({ s with fetched := s.fetched ++ [p] },
                   .error .nameErrorLogger)
               else
                 fetchLoop b { s with fetched := s.fetched ++ [p] } ps
                   (dictUpdate acc data)) := rfl
        rw [h1, hstore]
        simp [hkd]
      refine ⟨s2, res, by rw [hunfold, heq], fun k => ?_⟩
      have hstep := hchar k
      rw [envLookup_dictUpdate d acc k hnd] at hstep
      cases hacc : envLookup acc k with
      | some v =>
        have hdk : envLookup d k = none := by
          cases hdl : envLookup d k with
          | none => rfl
          | some w =>
            have hkind : k ∈ d.map Prod.fst :=
              (envMem_iff_mem_keys d k).mp (by simp [envMem, hdl])
            have := (keysInter_eq_nil_iff d acc).mp hkd k hkind
            simp [envMem, hacc] at this
        rw [hacc, hdk] at hstep
        simp only [hacc]
        simpa using hstep
      | none =>
        rw [hacc] at hstep
        simp only [hacc]
        cases hdl : envLookup d k with
        | some w =>
          rw [hdl] at hstep
          have hbf : bundlesFind (d :: ds) k = some w := by
            simp [bundlesFind, List.findSome?_cons, hdl]
          simp only [hbf]
          simpa using hstep
        | none =>
          rw [hdl] at hstep
          have hbf : bundlesFind (d :: ds) k = bundlesFind ds k := by
            simp [bundlesFind, List.findSome?_cons, hdl]
          simp only [hbf]
          simpa using hstep

/-! ### Lemmas about read_path as a whole -/

theorem read_path_noCreds (h : VaultHandler) (b : Backend) (s : Sys)
    (path : PathArg) (environ : Bool)
    (hc : check_env_credentials s = false) :
    read_path h b s path environ = (s, .error .nameErrorLogger) := by
  simp [read_path, hc, loggerError]

theorem read_path_unfold_ok (h : VaultHandler) (b : Backend) (s : Sys)
    (path : PathArg) (environ : Bool)
    (hc : check_env_credentials s = true) (hlr : b.loginRaises = false)
    (ht : ¬ b.token = "") :
    read_path h b s path environ =
      (match fetchLoop b { s with logins := s.logins + 1 } (pathList path) [] with
       | (s2, .error e) => (s2, .error e)
       | (s2, .ok results) =>
         if environ then
           ({ s2 with environ := dictUpdate s2.environ results }, .ok results)
         else
           (s2, .ok results)) := by
  have ha : approle_login h b s =
      ({ s with logins := s.logins + 1 }, .ok (some { token := b.token })) := by
    simp [approle_login, hlr, ht]
  simp only [read_path, hc, Bool.true_eq_false, if_neg, ite_false, ha, ht]

theorem read_path_disjoint_lookup (h : VaultHandler) (b : Backend) (s : Sys)
    (paths : List String) (bundles : List Dict)
    (hc : check_env_credentials s = true) (hlr : b.loginRaises = false)
    (ht : ¬ b.token = "")
    (hmap : paths.map b.store = bundles.map some)
    (hnodup : ∀ d ∈ bundles, nodupKeys d = true)
    (hpw : pairwiseDisjointB bundles = true) :
    ∃ m, (read_path h b s (.list paths) false).2 = .ok m ∧
      ∀ k, envLookup m k = bundlesFind bundles k := by
  obtain ⟨s2, res, heq, hchar⟩ :=
    fetchLoop_disjoint b paths bundles { s with logins := s.logins + 1 } []
      hmap hnodup (fun d _ => keysInter_nil_right d) hpw
  refine ⟨res, ?_, fun k => ?_⟩
  · rw [read_path_unfold_ok h b s (.list paths) false hc hlr ht]
    simp only [pathList]
    rw [heq]
    rfl
  · have := hchar k
    simpa [envLookup] using this

/-! ### Lemmas about bundlesFind under permutation -/

theorem bundlesFind_none_of_all_none (k : String) :
    ∀ (bs : List Dict), (∀ d ∈ bs, envLookup d k = none) →
      bundlesFind bs k = none := by
  intro bs
  induction bs with
  | nil => intro _; rfl
  | cons d ds ih =>
    intro hall
    have hd : envLookup d k = none := hall d (by simp)
    have hds : bundlesFind ds k = none := ih (fun d2 hm => hall d2 (by simp [hm]))
    simp [bundlesFind, List.findSome?_cons, hd] at hds ⊢
    exact hds

theorem exists_of_bundlesFind_some (k v : String) :
    ∀ (bs : List Dict), bundlesFind bs k = some v →
      ∃ d ∈ bs, envLookup d k = some v := by
  intro bs
  induction bs with
  | nil => intro hfind; simp [bundlesFind] at hfind
  | cons d ds ih =>
    intro hfind
    cases hd : envLookup d k with
    | some w =>
      have : some w = some v := by
        simpa [bundlesFind, List.findSome?_cons, hd] using hfind
      exact ⟨d, by simp, hd.trans this⟩
    | none =>
      have : bundlesFind ds k = some v := by
        simpa [bundlesFind, List.findSome?_cons, hd] using hfind
      obtain ⟨d2, hm, hv⟩ := ih this
      exact ⟨d2, by simp [hm], hv⟩

theorem bundlesFind_eq_some_of_mem (k v : String) :
    ∀ (bs : List Dict), pairwiseDisjointB bs = true →
      ∀ d ∈ bs, envLookup d k = some v → bundlesFind bs k = some v := by
  intro bs
  induction bs with
  | nil => intro _ d hd; cases hd
  | cons d0 ds ih =>
    intro hpw d hd hv
    simp only [pairwiseDisjointB, Bool.and_eq_true, List.all_eq_true] at hpw
    obtain ⟨hall, hpw2⟩ := hpw
    rcases List.mem_cons.mp hd with heq | hmem
    · subst heq
      simp [bundlesFind, List.findSome?_cons, hv]
    · have hd0 : envLookup d0 k = none := by
        cases hl : envLookup d0 k with
        | none => rfl
        | some w =>
          have hk0 : k ∈ d0.map Prod.fst :=
            (envMem_iff_mem_keys d0 k).mp (by simp [envMem, hl])
          have hempty : keysInter d0 d = [] :=
            (listIsEmpty_iff _).mp (hall d hmem)
          have hfalse : envMem d k = false :=
            (keysInter_eq_nil_iff d0 d).mp hempty k hk0
          simp [envMem, hv] at hfalse
      have := ih hpw2 d hmem hv
      simpa [bundlesFind, List.findSome?_cons, hd0] using this

theorem bundlesFind_perm (bs1 bs2 : List Dict) (hperm : bs1.Perm bs2)
    (h1 : pairwiseDisjointB bs1 = true) (h2 : pairwiseDisjointB bs2 = true)
    (k : String) : bundlesFind bs1 k = bundlesFind bs2 k := by
  cases hf : bundlesFind bs1 k with
  | some v =>
    obtain ⟨d, hd, hv⟩ := exists_of_bundlesFind_some k v bs1 hf
    exact (bundlesFind_eq_some_of_mem k v bs2 h2 d (hperm.subset hd) hv).symm
  | none =>
    cases hf2 : bundlesFind bs2 k with
    | none => rfl
    | some v =>
      obtain ⟨d, hd, hv⟩ := exists_of_bundlesFind_some k v bs2 hf2
      have := bundlesFind_eq_some_of_mem k v bs1 h1 d (hperm.symm.subset hd) hv
      rw [hf] at this
      exact absurd this (by simp)

/-! ### Lemmas about _set_environments on plain (non-marker) entries -/

theorem setEnv_plain_preserves (h : VaultHandler) (b : Backend) :
    ∀ (env : Dict) (s : Sys), allPlain env = true →
      ∀ k, envMem s.environ k = true →
        envLookup ((set_environments h b s env).1).environ k
          = envLookup s.environ k := by
  intro env
  induction env with
  | nil => intro s _ k _; rfl
  | cons p rest ih =>
    intro s hplain k hmem
    obtain ⟨key, value⟩ := p
    simp only [allPlain, Bool.and_eq_true, Bool.not_eq_true'] at hplain
    obtain ⟨hpl1, hpl2⟩ := hplain
    have hunfold : set_environments h b s ((key, value) :: rest) =
        (if envMem s.environ key = false then
           set_environments h b
             { s with environ := envSet s.environ key value } rest
         else
           (s, .error (.exceptionDuplicatedEnv key))) := by
      simp [set_environments, hpl1]
    rw [hunfold]
    by_cases hdup : envMem s.environ key = false
    · rw [if_pos hdup]
      have hkne : ¬ k = key := by
        intro hkk
        rw [hkk] at hmem
        rw [hmem] at hdup
        exact absurd hdup (by simp)
      have hmem2 : envMem (envSet s.environ key value) k = true := by
        rw [envMem_envSet]
        simp [hkne, hmem]
      have hrec := ih { s with environ := envSet s.environ key value } hpl2 k hmem2
      rw [hrec]
      dsimp only
      rw [envLookup_envSet]
      simp [hkne]
    · rw [if_neg hdup]

theorem setEnv_plain_dup_fails (h : VaultHandler) (b : Backend) :
    ∀ (env : Dict) (s : Sys), allPlain env = true → nodupKeys env = true →
      (∃ k ∈ env.map Prod.fst, envMem s.environ k = true) →
      ∃ k, k ∈ env.map Prod.fst ∧ envMem s.environ k = true ∧
        (set_environments h b s env).2 = .error (.exceptionDuplicatedEnv k) := by
  intro env
  induction env with
  | nil => intro s _ _ hex; simp at hex
  | cons p rest ih =>
    intro s hplain hnd hex
    obtain ⟨key, value⟩ := p
    simp only [allPlain, Bool.and_eq_true, Bool.not_eq_true'] at hplain
    obtain ⟨hpl1, hpl2⟩ := hplain
    simp only [nodupKeys, Bool.and_eq_true, Bool.not_eq_true'] at hnd
    obtain ⟨hnd1, hnd2⟩ := hnd
    have hunfold : set_environments h b s ((key, value) :: rest) =
        (if envMem s.environ key = false then
           set_environments h b
             { s with environ := envSet s.environ key value } rest
         else
           (s, .error (.exceptionDuplicatedEnv key))) := by
      simp [set_environments, hpl1]
    by_cases hdup : envMem s.environ key = false
    · obtain ⟨k0, hk0mem, hk0⟩ := hex
      have hk0rest : k0 ∈ rest.map Prod.fst := by
        simp only [List.map_cons, List.mem_cons] at hk0mem
        rcases hk0mem with heq | hmem
        · rw [heq] at hk0
          rw [hk0] at hdup
          exact absurd hdup (by simp)
        · exact hmem
      have hk0ne : ¬ k0 = key := by
        intro hkk
        rw [hkk] at hk0
        rw [hk0] at hdup
        exact absurd hdup (by simp)
      have hk0mem2 : envMem (envSet s.environ key value) k0 = true := by
        rw [envMem_envSet]
        simp [hk0ne, hk0]
      obtain ⟨k1, hk1rest, hk1mem, herr⟩ :=
        ih { s with environ := envSet s.environ key value } hpl2 hnd2
          ⟨k0, hk0rest, hk0mem2⟩
      have hk1ne : ¬ k1 = key := by
        intro hkk
        rw [hkk] at hk1rest
        have : envMem rest key = true := (envMem_iff_mem_keys rest key).mpr hk1rest
        rw [this] at hnd1
        exact absurd hnd1 (by simp)
      have hk1orig : envMem s.environ k1 = true := by
        have := hk1mem
        rw [show ({ s with environ := envSet s.environ key value } : Sys).environ
              = envSet s.environ key value from rfl] at this
        rw [envMem_envSet] at this
        simpa [hk1ne] using this
      refine ⟨k1, by simp [hk1rest], hk1orig, ?_⟩
      rw [hunfold, if_pos hdup]
      exact herr
    · have hkey : envMem s.environ key = true := by
        cases hb : envMem s.environ key with
        | true => rfl
        | false => exact absurd hb hdup
      refine ⟨key, by simp, hkey, ?_⟩
      rw [hunfold, if_neg hdup]

/-! ### Lemmas about the credential check and the login count -/

theorem get_secret_raises (h : VaultHandler) (b : Backend) (s : Sys)
    (path : PathArg) :
    get_secret h b s path = (s, .error .nameErrorLogger) := rfl

theorem read_path_logins (h : VaultHandler) (b : Backend) (s : Sys)
    (path : PathArg) (environ : Bool) (hc : check_env_credentials s = true) :
    ((read_path h b s path environ).1).logins = s.logins + 1 := by
  cases hlr : b.loginRaises with
  | true =>
    have ha : approle_login h b s =
        ({ s with logins := s.logins + 1 }, .error .hvacLoginException) := by
      simp [approle_login, hlr]
    simp [read_path, hc, ha]
  | false =>
    by_cases ht : b.token = ""
    · have ha : approle_login h b s =
          ({ s with logins := s.logins + 1 }, .error .nameErrorLogger) := by
        simp [approle_login, hlr, ht, loggerError]
      simp [read_path, hc, ha]
    · rw [read_path_unfold_ok h b s path environ hc hlr ht]
      rcases hfl : fetchLoop b { s with logins := s.logins + 1 } (pathList path) []
        with ⟨s2, r⟩
      have hstate := fetchLoop_state b (pathList path)
        { s with logins := s.logins + 1 } []
      rw [hfl] at hstate
      cases r with
      | error e => simpa using hstate.1
      | ok results =>
        cases environ with
        | false => simpa using hstate.1
        | true => simpa using hstate.1

/-! ### Claim theorems -/

/-- Claim C1 (amended): only _set_environments enforces the no-overwrite
rule. For a batch of plain (non-marker) configuration entries with
pairwise-distinct keys, if some key is already present in the current
environment then _set_environments fails with the DUPLICATED-environment
exception for such a key, and no key already present in the environment
ever has its value changed by the call. By contrast, read_path called
with environ=true (source lines 165-167) performs no duplicate check: it
writes the merged mapping unconditionally, overwriting any pre-existing
environment value. -/
theorem C1_env_duplicates :
    (∀ (h : VaultHandler) (b : Backend) (s : Sys) (env : Dict),
      allPlain env = true → nodupKeys env = true →
      (∃ k ∈ env.map Prod.fst, envMem s.environ k = true) →
      (∃ k, envMem s.environ k = true ∧
        (set_environments h b s env).2 = .error (.exceptionDuplicatedEnv k)) ∧
      (∀ k, envMem s.environ k = true →
        envLookup ((set_environments h b s env).1).environ k
          = envLookup s.environ k))
    ∧
    (∀ (h : VaultHandler) (b : Backend) (s : Sys) (p k v : String),
      check_env_credentials s = true → b.loginRaises = false →
      ¬ b.token = "" → b.store p = some [(k, v)] →
      (read_path h b s (.str p) true).2 = .ok [(k, v)] ∧
      envLookup ((read_path h b s (.str p) true).1).environ k = some v) := by
  constructor
  · intro h b s env hplain hnd hex
    refine ⟨?_, fun k hk => setEnv_plain_preserves h b env s hplain k hk⟩
    obtain ⟨k1, _, hk1, herr⟩ := setEnv_plain_dup_fails h b env s hplain hnd hex
    exact ⟨k1, hk1, herr⟩
  · intro h b s p k v hc hlr ht hstore
    rw [read_path_unfold_ok h b s (.str p) true hc hlr ht]
    have hfl : fetchLoop b { s with logins := s.logins + 1 }
        (pathList (.str p)) []
        = ({ s with logins := s.logins + 1, fetched := s.fetched ++ [p] },
            .ok [(k, v)]) := by
      simp [pathList, fetchLoop, hstore, keysInter_nil_right, dictUpdate, envSet]
    rw [hfl]
    refine ⟨rfl, ?_⟩
    show envLookup (envSet s.environ k v) k = some v
    rw [envLookup_envSet]
    simp

/-- Witness for C1: with K=old already in the environment, the plain
batch [(K, v2)] fails with the DUPLICATED exception leaving K=old, while
read_path with environ=true on a bundle binding K succeeds and ends with
K=new. -/
theorem C1_env_duplicates_witness :
    ((∃ k, envMem sysDupEnv.environ k = true ∧
        (set_environments handlerEx backendEx sysDupEnv [("K", "v2")]).2
          = .error (.exceptionDuplicatedEnv k)) ∧
      (∀ k, envMem sysDupEnv.environ k = true →
        envLookup ((set_environments handlerEx backendEx sysDupEnv
            [("K", "v2")]).1).environ k = envLookup sysDupEnv.environ k)) ∧
    ((read_path handlerEx backendEx sysDupEnv (.str ("db")) true).2
        = .ok [("K", "new")] ∧
      envLookup ((read_path handlerEx backendEx sysDupEnv (.str ("db"))
          true).1).environ ("K") = some ("new")) :=
  ⟨C1_env_duplicates.1 handlerEx backendEx sysDupEnv [("K", "v2")]
      (by decide) (by decide) (by decide),
   C1_env_duplicates.2 handlerEx backendEx sysDupEnv ("db") ("K") ("new")
      (by decide) (by decide) (by decide) (by decide)⟩

/-- Counterexample to claim C1 as stated: read_path with environ=true, on
a store whose bundle binds the pre-existing environment key K, does not
fail with a duplicate-env-key error — it succeeds and overwrites K (old
value lost). -/
theorem C1_counterexample :
    (read_path handlerEx backendEx sysDupEnv (.str ("db")) true).2
        = .ok [("K", "new")] ∧
    envLookup ((read_path handlerEx backendEx sysDupEnv (.str ("db"))
        true).1).environ ("K") = some ("new") ∧
    envLookup sysDupEnv.environ ("K") = some ("old") :=
  ⟨rfl, rfl, rfl⟩

/-- Claim C2, evaluated at the scenario of the specification: on the
config entry VAULT_PATH_DB -> app/db, where app/db yields DB_USER=a,
expansion does not write DB_USER at all: the nested get_secret call
raises NameError from its deprecation warning (the logger is undefined),
the whole _set_environments call fails, and the environment is unchanged
— no successful expansion exists in this code. -/
theorem C2_marker_expansion_eval :
    set_environments handlerEx backendEx sysCred [("VAULT_PATH_DB", "app/db")]
        = (sysCred, .error .nameErrorLogger) ∧
    storeEx ("app/db") = some [("DB_USER", "a"), ("DB_PASS", "b")] ∧
    envLookup ((set_environments handlerEx backendEx sysCred
        [("VAULT_PATH_DB", "app/db")]).1).environ ("DB_USER") = none :=
  ⟨rfl, rfl, rfl⟩

/-- Claim C3, evaluated at two bundles sharing DB_USER: read_path fails
with NameError (undefined logger at the duplicate-detection site, before
the dead bare raise), not with an error naming the shared keys; the
intersection the site computes for its log message is exactly [DB_USER];
get_secret raises NameError at its first statement before any merging.
No partial merged result is returned in either case. -/
theorem C3_duplicate_merge_eval :
    (read_path handlerEx backendEx sysCred
        (.list ["app/db", "app/legacy-db"]) false).2
      = .error .nameErrorLogger ∧
    keysInter [("DB_USER", "z")] [("DB_USER", "a"), ("DB_PASS", "b")]
        = ["DB_USER"] ∧
    (get_secret handlerEx backendEx sysCred
        (.list ["app/db", "app/legacy-db"])).2 = .error .nameErrorLogger :=
  ⟨rfl, rfl, rfl⟩

/-- Claim C4: for any sequence of paths whose bundles have pairwise
disjoint key sets (with credentials present, a non-empty token and a
non-raising login), read_path succeeds and the merged result is exactly
the union of the bundles: looking up any key in the result gives the
value bound by the unique bundle containing it, and nothing else. -/
theorem C4_disjoint_merge_union (h : VaultHandler) (b : Backend) (s : Sys)
    (paths : List String) (bundles : List Dict)
    (hc : check_env_credentials s = true) (hlr : b.loginRaises = false)
    (ht : ¬ b.token = "")
    (hmap : paths.map b.store = bundles.map some)
    (hnodup : ∀ d ∈ bundles, nodupKeys d = true)
    (hpw : pairwiseDisjointB bundles = true) :
    ∃ m, (read_path h b s (.list paths) false).2 = .ok m ∧
      ∀ k, envLookup m k = bundlesFind bundles k :=
  read_path_disjoint_lookup h b s paths bundles hc hlr ht hmap hnodup hpw

/-- Witness for C4, at the specification scenario app/db + app/cache. -/
theorem C4_disjoint_merge_union_witness :
    ∃ m, (read_path handlerEx backendEx sysCred
        (.list ["app/db", "app/cache"]) false).2 = .ok m ∧
      ∀ k, envLookup m k = bundlesFind
        [[("DB_USER", "a"), ("DB_PASS", "b")], [("CACHE_HOST", "h")]] k :=
  C4_disjoint_merge_union handlerEx backendEx sysCred
    ["app/db", "app/cache"]
    [[("DB_USER", "a"), ("DB_PASS", "b")], [("CACHE_HOST", "h")]]
    (by decide) rfl (by decide) rfl (by decide) (by decide)

/-- Claim C5, evaluated: when the authentication exchange returns an
empty client token, read_path fails before any secret fetch (the fetch
trace stays empty, after exactly one login exchange) — but the error is
NameError from the undefined logger inside _approle_login, not a
token-missing error; the empty-token guard of read_path itself (lines
142-146) is unreachable. -/
theorem C5_empty_token_eval :
    read_path handlerEx backendEmptyTok sysCred (.str ("app/db")) false
        = ({ sysCred with logins := 1 }, .error .nameErrorLogger) ∧
    ((read_path handlerEx backendEmptyTok sysCred (.str ("app/db"))
        false).1).fetched = [] :=
  ⟨rfl, rfl⟩

/-- Claim C6, evaluated: get_secret raises NameError at its very first
statement (the deprecation logger.warning with logger undefined) on every
call, including this duplicate-key scenario; its merge loop (lines
204-218), which would indeed return the failure indicator
(False, errors-dict) without raising, is unreachable. -/
theorem C6_get_secret_eval :
    get_secret handlerEx backendEx sysCred (.list ["app/db", "app/legacy-db"])
        = (sysCred, .error .nameErrorLogger) ∧
    getSecretLoop backendEx sysCred ["app/db", "app/legacy-db"] []
        = ({ sysCred with fetched := ["app/db", "app/legacy-db"] },
            .ok (false, errsDict ["DB_USER"])) :=
  ⟨rfl, rfl⟩

/-- Claim C7 (amended): the credential precondition consults only the
environment. (i) When role_id or secret_id is absent from the environment,
read_path fails before any login or fetch — the state, including both
traces, is returned unchanged — though with NameError from the undefined
logger rather than a missing-credentials error. (ii) Whenever both are
present in the environment, read_path proceeds past the check and
performs the login exchange (the login count increases by one), whatever
the handler instance fields hold. (iii) get_secret raises NameError from
its deprecation warning before even reaching its credential check, on
every call. -/
theorem C7_credential_check :
    (∀ (h : VaultHandler) (b : Backend) (s : Sys) (path : PathArg) (e : Bool),
      check_env_credentials s = false →
      read_path h b s path e = (s, .error .nameErrorLogger))
    ∧
    (∀ (h : VaultHandler) (b : Backend) (s : Sys) (path : PathArg) (e : Bool),
      check_env_credentials s = true →
      ((read_path h b s path e).1).logins = s.logins + 1)
    ∧
    (∀ (h : VaultHandler) (b : Backend) (s : Sys) (path : PathArg),
      get_secret h b s path = (s, .error .nameErrorLogger)) :=
  ⟨fun h b s path e hc => read_path_noCreds h b s path e hc,
   fun h b s path e hc => read_path_logins h b s path e hc,
   fun h b s path => get_secret_raises h b s path⟩

/-- Witness for C7 at concrete states with and without environment
credentials. -/
theorem C7_credential_check_witness :
    read_path handlerEx backendEx sysNoCred (.str ("app/db")) false
        = (sysNoCred, .error .nameErrorLogger) ∧
    ((read_path handlerEx backendEx sysCred (.str ("app/db")) false).1).logins
        = sysCred.logins + 1 ∧
    get_secret handlerEx backendEx sysCred (.str ("app/db"))
        = (sysCred, .error .nameErrorLogger) :=
  ⟨C7_credential_check.1 handlerEx backendEx sysNoCred (.str ("app/db"))
      false rfl,
   C7_credential_check.2.1 handlerEx backendEx sysCred (.str ("app/db"))
      false rfl,
   C7_credential_check.2.2 handlerEx backendEx sysCred (.str ("app/db"))⟩

/-- Counterexample to claim C7 as stated: a handler constructed with both
identifiers as explicit constructor arguments, in a process whose
environment lacks role_id and secret_id, still fails the precondition —
the check ignores the constructor-supplied identifiers — and the failure
is a NameError, with no login attempted (the returned state is unchanged,
login count still zero). -/
theorem C7_counterexample :
    (VaultHandler.init (some ("https://v")) (some ("role-A")) (some ("sec-B"))
        sysNoCred).role_id = some ("role-A") ∧
    (VaultHandler.init (some ("https://v")) (some ("role-A")) (some ("sec-B"))
        sysNoCred).secret_id = some ("sec-B") ∧
    read_path
        (VaultHandler.init (some ("https://v")) (some ("role-A"))
          (some ("sec-B")) sysNoCred)
        backendEx sysNoCred (.str ("app/db")) false
      = (sysNoCred, .error .nameErrorLogger) :=
  ⟨rfl, rfl, rfl⟩

/-- Claim C8, evaluated on the batch [A=1, VAULT_PATH_MISSING, B=2]: when
the nested fetch for the marker entry fails, the error propagates (as
NameError from get_secret, not as an error naming the marker key — line
109, which would name it, is unreachable), no further entry of the batch
is written (B is absent), and the entry already written earlier in the
batch remains set (A=1, no rollback). -/
theorem C8_partial_batch_eval :
    (set_environments handlerEx backendEx sysCred
        [("A", "1"), ("VAULT_PATH_MISSING", "no/such"), ("B", "2")]).2
      = .error .nameErrorLogger ∧
    envLookup ((set_environments handlerEx backendEx sysCred
        [("A", "1"), ("VAULT_PATH_MISSING", "no/such"), ("B", "2")]).1).environ
        ("A") = some ("1") ∧
    envLookup ((set_environments handlerEx backendEx sysCred
        [("A", "1"), ("VAULT_PATH_MISSING", "no/such"), ("B", "2")]).1).environ
        ("B") = none :=
  ⟨rfl, rfl, rfl⟩

/-- Claim C9: for pairwise-disjoint bundles, the content of the merged
result produced by read_path does not depend on the order in which the
paths are processed: any two orders whose bundle sequences are
permutations of one another both succeed and agree on the value of every
key. -/
theorem C9_merge_order_invariant (h : VaultHandler) (b : Backend) (s : Sys)
    (paths1 paths2 : List String) (bundles1 bundles2 : List Dict)
    (hc : check_env_credentials s = true) (hlr : b.loginRaises = false)
    (ht : ¬ b.token = "")
    (hmap1 : paths1.map b.store = bundles1.map some)
    (hmap2 : paths2.map b.store = bundles2.map some)
    (hnodup1 : ∀ d ∈ bundles1, nodupKeys d = true)
    (hnodup2 : ∀ d ∈ bundles2, nodupKeys d = true)
    (hpw1 : pairwiseDisjointB bundles1 = true)
    (hpw2 : pairwiseDisjointB bundles2 = true)
    (hperm : bundles1.Perm bundles2) :
    ∃ m1 m2, (read_path h b s (.list paths1) false).2 = .ok m1 ∧
      (read_path h b s (.list paths2) false).2 = .ok m2 ∧
      ∀ k, envLookup m1 k = envLookup m2 k := by
  obtain ⟨m1, h1, hchar1⟩ :=
    read_path_disjoint_lookup h b s paths1 bundles1 hc hlr ht hmap1 hnodup1 hpw1
  obtain ⟨m2, h2, hchar2⟩ :=
    read_path_disjoint_lookup h b s paths2 bundles2 hc hlr ht hmap2 hnodup2 hpw2
  refine ⟨m1, m2, h1, h2, fun k => ?_⟩
  rw [hchar1 k, hchar2 k]
  exact bundlesFind_perm bundles1 bundles2 hperm hpw1 hpw2 k

/-- Witness for C9: the two orders of app/db and app/cache agree on every
key of the merged result. -/
theorem C9_merge_order_invariant_witness :
    ∃ m1 m2, (read_path handlerEx backendEx sysCred
        (.list ["app/db", "app/cache"]) false).2 = .ok m1 ∧
      (read_path handlerEx backendEx sysCred
        (.list ["app/cache", "app/db"]) false).2 = .ok m2 ∧
      ∀ k, envLookup m1 k = envLookup m2 k :=
  C9_merge_order_invariant handlerEx backendEx sysCred
    ["app/db", "app/cache"] ["app/cache", "app/db"]
    [[("DB_USER", "a"), ("DB_PASS", "b")], [("CACHE_HOST", "h")]]
    [[("CACHE_HOST", "h")], [("DB_USER", "a"), ("DB_PASS", "b")]]
    (by decide) rfl (by decide) rfl rfl (by decide) (by decide)
    (by decide) (by decide) (by decide)

/-- Claim C10, evaluated: get_config_path never reaches the APPNAME
assignment of line 231 — its first statement is the deprecation
logger.warning call, which raises NameError (undefined logger), so the
call fails with the state unchanged and APPNAME is never written; the
value line 231 would compute for this argv0 is APP. -/
theorem C10_get_config_path_eval :
    get_config_path handlerEx backendEx sysCred
        = (sysCred, .error .nameErrorLogger) ∧
    envLookup ((get_config_path handlerEx backendEx sysCred).1).environ
        ("APPNAME") = none ∧
    appnameOf sysCred.argv0 = "APP" :=
  ⟨rfl, rfl, rfl⟩

end Vault

